import Mathlib

/-!
Verification development for the scene-moderator repository.

The embedding covers the two core components named by the spec:
* the response parser (`src/parser/response-parser.ts`): `parseResponse`,
  `strictParse`, `salvageParse`, with the JavaScript regexes modelled as
  executable scanners over `List Char`;
* the beat scheduler (`src/moderator/scene-moderator.ts`): `validateConfig`,
  `runSceneWithAgents` and its helpers, with the per-beat `while` loop
  modelled by fuel-indexed structural recursion (fuel = remaining beats) and
  the asynchronous agent gateway modelled as a function from the beat's
  `SceneUpdate` to an optional `CharacterResponse` (`none` = rejected
  promise).  Wall-clock-only metadata fields (`duration`, ISO `timestamp`)
  are outside the embedding and omitted.
-/

namespace SceneMod

/-! ## JavaScript string primitives -/

/-- The character class of the JavaScript `\s` regex escape (and of
`String.prototype.trim`). -/
def jsWs (c : Char) : Bool :=
  let n := c.toNat
  n == 9 || n == 10 || n == 11 || n == 12 || n == 13 || n == 32 ||
  n == 160 || n == 0x1680 || (decide (0x2000 ≤ n) && decide (n ≤ 0x200A)) ||
  n == 0x2028 || n == 0x2029 || n == 0x202F || n == 0x205F ||
  n == 0x3000 || n == 0xFEFF

/-- `trim` on a character list: drop JS whitespace from both ends. -/
def jsTrimL (l : List Char) : List Char :=
  ((l.dropWhile jsWs).reverse.dropWhile jsWs).reverse

/-- JavaScript `String.prototype.trim`. -/
def jsTrimS (s : String) : String :=
  ⟨jsTrimL s.toList⟩

/-- Does `p` occur as a prefix of `l`? -/
def isPrefixL : List Char → List Char → Bool
  | [], _ => true
  | _ :: _, [] => false
  | p :: ps, c :: cs => p == c && isPrefixL ps cs

/-- Drop the prefix `p` from `l`, or fail. -/
def dropPrefixL : List Char → List Char → Option (List Char)
  | [], l => some l
  | _ :: _, [] => none
  | p :: ps, c :: cs => if p == c then dropPrefixL ps cs else none

/-- JavaScript `String.prototype.includes`: does `needle` occur anywhere? -/
def containsL (needle : List Char) : List Char → Bool
  | [] => isPrefixL needle []
  | c :: cs => isPrefixL needle (c :: cs) || containsL needle cs

/-- Leftmost-position regex search: try the position matcher `f` on every
suffix of the subject, left to right, and return the first success. -/
def scanFirst (f : List Char → Option α) : List Char → Option α
  | [] => f []
  | c :: cs =>
    match f (c :: cs) with
    | some x => some x
    | none => scanFirst f cs

/-- The `["']` character class. -/
def isQuote (c : Char) : Bool :=
  c == '"' || c.toNat == 39

/-! ## Parsed responses -/

/-- The `action` field of a `ParsedResponse`
(`'speak' | 'interrupt' | 'silent' | 'react'`). -/
inductive Action
  | speak
  | interrupt
  | silent
  | react
deriving DecidableEq, Repr

/-- `ParsedResponse` from `src/types/index.ts`. -/
structure ParsedResponse where
  action : Action
  target : Option String := none
  tone : String
  content : String
  nonverbal : Option String := none
  interruptAfter : Option String := none
  warning : Option String := none
deriving DecidableEq, Repr

/-! ## The strict-parse regexes -/

/-- The anchored regex `^\[(.*?)\]\s*(.*)` with the `s` flag: a leading
bracket, the (lazy, hence shortest) bracket body up to the first `]`, then
the remainder with leading whitespace stripped by `\s*`. -/
def leadingBracket (l : List Char) : Option (List Char × List Char) :=
  match l with
  | '[' :: rest =>
    let body := rest.takeWhile (fun c => !(c == ']'))
    match rest.drop body.length with
    | _ :: after => some (body, after.dropWhile jsWs)
    | [] => none
  | _ => none

/-- Position matcher for `INTERRUPT after ["']([^"']+)["']`: the literal,
an opening quote, a nonempty maximal run of non-quote characters, and a
closing quote. -/
def interruptAtPos (l : List Char) : Option (List Char) :=
  match dropPrefixL "INTERRUPT after ".toList l with
  | none => none
  | some rest =>
    match rest with
    | q :: rest2 =>
      if isQuote q then
        let phrase := rest2.takeWhile (fun c => !(isQuote c))
        match phrase, rest2.drop phrase.length with
        | [], _ => none
        | _ :: _, c :: _ => if isQuote c then some phrase else none
        | _ :: _, [] => none
      else none
    | [] => none

/-- The search `bracketContent.match(/INTERRUPT after ["']([^"']+)["']/)`. -/
def interruptCapture (l : List Char) : Option (List Char) :=
  scanFirst interruptAtPos l

/-- Position matcher for a `KEY:\s*([^...]+)` regex (`allowed` is the
complement of the character class).  `\s*` is tried greedily; when the
character after the whitespace is outside the class the regex engine
backtracks one whitespace character (whitespace itself is inside the
class), capturing exactly that character. -/
def kvAtPos (key : List Char) (allowed : Char → Bool) (l : List Char) :
    Option (List Char) :=
  match dropPrefixL key l with
  | none => none
  | some rest =>
    let w := rest.takeWhile jsWs
    let r := rest.drop w.length
    match r with
    | c :: _ =>
      if allowed c then some (r.takeWhile allowed)
      else
        match w.reverse with
        | [] => none
        | x :: _ => some [x]
    | [] =>
      match w.reverse with
      | [] => none
      | x :: _ => some [x]

/-- The search `match(/TO:\s*([^,\]]+)/)`. -/
def targetCapture (l : List Char) : Option (List Char) :=
  scanFirst (kvAtPos "TO:".toList (fun c => !(c == ',' || c == ']'))) l

/-- The search `match(/TONE:\s*([^,\]*]+)/)`. -/
def toneCapture (l : List Char) : Option (List Char) :=
  scanFirst (kvAtPos "TONE:".toList (fun c => !(c == ',' || c == ']' || c == '*'))) l

/-- Position matcher for `\*([^*]+)\*`. -/
def nonverbalAtPos (l : List Char) : Option (List Char) :=
  match l with
  | '*' :: rest =>
    let body := rest.takeWhile (fun c => !(c == '*'))
    match body, rest.drop body.length with
    | [], _ => none
    | _ :: _, c :: _ => if c == '*' then some body else none
    | _ :: _, [] => none
  | _ => none

/-- The search `match(/\*([^*]+)\*/)`. -/
def nonverbalCapture (l : List Char) : Option (List Char) :=
  scanFirst nonverbalAtPos l

/-- Position matcher for `["']([^"']+)["']` (salvage-tier quoted content). -/
def quoteAtPos (l : List Char) : Option (List Char) :=
  match l with
  | q :: rest =>
    if isQuote q then
      let body := rest.takeWhile (fun c => !(isQuote c))
      match body, rest.drop body.length with
      | [], _ => none
      | _ :: _, c :: _ => if isQuote c then some body else none
      | _ :: _, [] => none
    else none
  | [] => none

/-- The search `match(/["']([^"']+)["']/)`. -/
def quoteCapture (l : List Char) : Option (List Char) :=
  scanFirst quoteAtPos l

/-- `replace(/^["']|["']$/g, '')`: strip one leading and one trailing quote
character (a single-character quote string is consumed by the first
alternative only). -/
def stripQuotesL (l : List Char) : List Char :=
  let l1 := match l with
    | c :: rest => if isQuote c then rest else l
    | [] => []
  match l1.reverse with
  | c :: rest => if isQuote c then rest.reverse else l1
  | [] => l1

/-! ## strictParse -/

/-- Action-kind detection and interrupt-phrase extraction from the bracket
body (the first block of `strictParse`).  Throws — `Except.error` — when
`INTERRUPT after` is present but the quoted phrase does not match. -/
def actionStep (br : List Char) (r : ParsedResponse) :
    Except String ParsedResponse :=
  if containsL "INTERRUPT".toList br then
    match interruptCapture br with
    | some ph =>
      Except.ok { r with action := Action.interrupt, interruptAfter := some ⟨ph⟩ }
    | none =>
      if containsL "INTERRUPT after".toList br then
        Except.error "Interrupt phrase not properly formatted"
      else
        Except.ok { r with action := Action.interrupt,
                           warning := some "INTERRUPT action missing \"after\" phrase" }
  else if containsL "SILENT".toList br then
    Except.ok { r with action := Action.silent }
  else if containsL "REACT".toList br then
    Except.ok { r with action := Action.react }
  else
    Except.ok r

/-- `TO:` extraction. -/
def targetStep (br : List Char) (r : ParsedResponse) : ParsedResponse :=
  match targetCapture br with
  | some t => { r with target := some (jsTrimS ⟨t⟩) }
  | none => r

/-- `TONE:` extraction, defaulting to `"neutral"` (with a warning that
overwrites any earlier one) when the field is missing and the action is not
silent. -/
def toneStep (br : List Char) (r : ParsedResponse) : ParsedResponse :=
  match toneCapture br with
  | some t => { r with tone := jsTrimS ⟨t⟩ }
  | none =>
    if r.action ≠ Action.silent then
      { r with tone := "neutral",
               warning := some "Missing required TONE field, defaulted to neutral" }
    else r

/-- `*...*` nonverbal extraction. -/
def nonverbalStep (br : List Char) (r : ParsedResponse) : ParsedResponse :=
  match nonverbalCapture br with
  | some nv => { r with nonverbal := some (jsTrimS ⟨nv⟩) }
  | none => r

/-- Content extraction from the text after the closing bracket: trim, strip
one layer of surrounding quotes; when content is expected (speak/interrupt)
but absent, attach a warning only if none is present yet. -/
def contentStep (after : List Char) (r : ParsedResponse) : ParsedResponse :=
  if jsTrimL after ≠ [] then
    { r with content := ⟨stripQuotesL (jsTrimL after)⟩ }
  else if r.action = Action.speak ∨ r.action = Action.interrupt then
    if r.warning = none then
      { r with warning := some "Expected content for speak/interrupt action" }
    else r
  else r

/-- `strictParse` from `src/parser/response-parser.ts`; `Except.error`
models a thrown exception. -/
def strictParse (raw : String) : Except String ParsedResponse :=
  match leadingBracket raw.toList with
  | none => Except.error "No bracket section found"
  | some (br, after) =>
    (actionStep br { action := Action.speak, tone := "", content := "" }).map
      (fun r => contentStep after (nonverbalStep br (toneStep br (targetStep br r))))

/-! ## salvageParse -/

/-- The `toneKeywords` record of `salvageParse`, in insertion order. -/
def toneKeywords : List (String × String) :=
  [("angry", "angry"), ("frustrated", "frustrated"), ("happy", "happy"),
   ("sad", "sad"), ("nervous", "nervous"), ("excited", "excited"),
   ("calm", "calm"), ("surprised", "surprised"), ("confused", "confused"),
   ("worried", "worried")]

/-- `toLowerCase` (ASCII approximation, sufficient for the keyword scan). -/
def jsLower (l : List Char) : List Char :=
  l.map Char.toLower

/-- Salvage tone detection: the first keyword of the record (in insertion
order) occurring in the lowercased text. -/
def salvageTone (raw : String) (r : ParsedResponse) : ParsedResponse :=
  match toneKeywords.find? (fun p => containsL p.1.toList (jsLower raw.toList)) with
  | some p => { r with tone := p.2 }
  | none => r

/-- Salvage content: the first quoted span, when one exists. -/
def salvageContent (raw : String) (r : ParsedResponse) : ParsedResponse :=
  match quoteCapture raw.toList with
  | some q => { r with content := ⟨q⟩ }
  | none => r

/-- Salvage `TO:` field extraction. -/
def salvageTargetStep (raw : String) (r : ParsedResponse) : ParsedResponse :=
  match targetCapture raw.toList with
  | some t => { r with target := some (jsTrimS ⟨t⟩) }
  | none => r

/-- `salvageParse` from `src/parser/response-parser.ts`: total salvage of a
malformed response — speak action, keyword-detected or neutral tone, first
quoted span (else the whole text) as content, and a format warning. -/
def salvageParse (raw : String) : ParsedResponse :=
  salvageTargetStep raw (salvageContent raw (salvageTone raw
    { action := Action.speak, tone := "neutral", content := raw,
      warning := some "Failed to parse format, attempting salvage" }))

/-! ## parseResponse -/

/-- `parseResponse`: empty input short-circuits to a silent event; otherwise
the strict tier is tried and any exception is caught by the salvage tier. -/
def parseResponse (raw : String) : ParsedResponse :=
  if raw = "" then
    { action := Action.silent, tone := "neutral", content := "",
      warning := some "Empty or null response" }
  else
    match strictParse raw with
    | Except.ok r => r
    | Except.error _ => salvageParse raw

/-- Exception-transparent semantics of `parseResponse`: the same control
flow with thrown exceptions propagated as `Except.error` wherever the
source does not catch them.  The `try/catch` around `strictParse` is the
only handler, so an uncaught exception would surface here. -/
def parseResponseE (raw : String) : Except String ParsedResponse :=
  if raw = "" then
    Except.ok { action := Action.silent, tone := "neutral", content := "",
                warning := some "Empty or null response" }
  else
    match strictParse raw with
    | Except.ok r => Except.ok r
    | Except.error _ => Except.ok (salvageParse raw)

/-! ## Scheduler data model (`src/types/index.ts`) -/

/-- `SceneConfig`. -/
structure SceneConfig where
  name : String
  prompt : String
  characters : List String
  initialSpeaker : Option String := none
  maxBeats : Option Nat := none
deriving DecidableEq, Repr

/-- `DialogEntry`.  The source narrows `action` to
`'speak' | 'interrupt' | 'react'` by typing; here the full `Action` type is
used and the absence of `silent` is proved (claim C3). -/
structure DialogEntry where
  speaker : String
  action : Action
  target : Option String := none
  tone : String
  content : String
  nonverbal : Option String := none
  beat : Nat
  timestamp : Nat
deriving DecidableEq, Repr

/-- `TranscriptEntry = DialogEntry | WorldEventEntry | SystemEntry`. -/
inductive TranscriptEntry
  | dialog (e : DialogEntry)
  | event (description : String) (beat : Nat) (timestamp : Nat)
  | system (message : String) (beat : Nat) (timestamp : Nat)
deriving DecidableEq, Repr

/-- `SceneUpdate`. -/
structure SceneUpdate where
  sceneContext : String
  transcript : String
  lastEvent : Option TranscriptEntry
  moderatorNote : Option String := none
  beat : Nat
deriving DecidableEq, Repr

/-- `CharacterResponse`. -/
structure CharacterResponse where
  raw : String
  parsed : ParsedResponse
  timestamp : Nat
deriving DecidableEq, Repr

/-- A settled response together with `agentName` (the spread
`{ ...response, agentName: agent.name }` in `collectResponses`). -/
structure NamedResponse extends CharacterResponse where
  agentName : String
deriving DecidableEq, Repr

/-- An `ICharacterAgent`: a name and the `respondTo` gateway call, with
`none` modelling a rejected promise. -/
structure AgentModel where
  name : String
  respond : SceneUpdate → Option CharacterResponse

/-- `completionReason` of `SceneMetadata`. -/
inductive CompletionReason
  | goal_achieved
  | natural_end
  | max_beats
  | error
deriving DecidableEq, Repr

/-- `ErrorLog` (entries of `SceneMetadata.errors`). -/
structure ErrorLog where
  beat : Nat
  character : Option String := none
  error : String
deriving DecidableEq, Repr

/-- `SceneMetadata` (wall-clock `duration`/`timestamp` omitted). -/
structure SceneMetadata where
  name : String
  totalBeats : Nat
  characterCount : Nat
  goalAchieved : Bool
  completionReason : CompletionReason
  errors : Option (List ErrorLog) := none
  characters : List String
deriving DecidableEq, Repr

/-- `ErrorInfo` (the untyped `context` record modelled as the config that
was attached). -/
structure ErrorInfo where
  code : String
  message : String
  context : Option SceneConfig := none
deriving DecidableEq, Repr

/-- `SceneResult`. -/
structure SceneResult where
  success : Bool
  transcript : String
  metadata : SceneMetadata
  outputPath : String
  error : Option ErrorInfo := none
deriving DecidableEq, Repr

/-- The completion oracle signature (`shouldComplete(transcript, config,
beat)`), an injectable policy per the spec. -/
abbrev Oracle := List TranscriptEntry → SceneConfig → Nat → Bool

/-- The source's `shouldComplete` stub: always `false`. -/
def shouldComplete : Oracle := fun _ _ _ => false

/-! ## Scheduler functions (`src/moderator/scene-moderator.ts`) -/

/-- `validateConfig`'s return shape. -/
structure ValidationResult where
  valid : Bool
  error : Option String := none
deriving DecidableEq, Repr

/-- `validateConfig`: falsy-or-blank name, falsy-or-blank prompt, empty
character list. -/
def validateConfig (config : SceneConfig) : ValidationResult :=
  if config.name = "" ∨ jsTrimS config.name = "" then
    { valid := false, error := some "Scene name is required" }
  else if config.prompt = "" ∨ jsTrimS config.prompt = "" then
    { valid := false, error := some "Scene prompt is required" }
  else if config.characters = [] then
    { valid := false, error := some "At least one character is required" }
  else
    { valid := true }

/-- One rendered line of `formatTranscript` (JS template literal; empty
`target` is falsy and renders nothing). -/
def formatEntry (entry : TranscriptEntry) : String :=
  match entry with
  | TranscriptEntry.dialog e =>
    let target := match e.target with
      | some t => if t = "" then "" else " [TO: " ++ t ++ "]"
      | none => ""
    let nonverbal := match e.nonverbal with
      | some nv => if nv = "" then "" else ", *" ++ nv ++ "*"
      | none => ""
    e.speaker ++ target ++ " [TONE: " ++ e.tone ++ nonverbal ++ "] \"" ++
      e.content ++ "\""
  | TranscriptEntry.event d _ _ => "[EVENT: " ++ d ++ "]"
  | TranscriptEntry.system m _ _ => "[SYSTEM: " ++ m ++ "]"

/-- `formatTranscript`: newline-joined rendered entries, `""` when empty. -/
def formatTranscript (entries : List TranscriptEntry) (_config : SceneConfig) :
    String :=
  if entries = [] then ""
  else String.intercalate "\n" (entries.map formatEntry)

/-- `generateModeratorNote`: progress thresholds at 60% and 80% of
`maxBeats` (the source compares the floating quotient with the literals
`0.6`/`0.8`; for the integer inputs in range this agrees with the exact
rational comparison used here). -/
def generateModeratorNote (currentBeat maxBeats : Nat) : Option String :=
  if 5 * currentBeat > 4 * maxBeats then
    some "Scene approaching conclusion. Begin wrapping up your character arc."
  else if 5 * currentBeat > 3 * maxBeats then
    some "Scene past midpoint. Consider moving toward resolution."
  else none

/-- `createUpdate`: context for the current beat — the prompt, the last 10
transcript entries rendered, the last entry, the moderator note. -/
def createUpdate (config : SceneConfig) (transcript : List TranscriptEntry)
    (beat : Nat) : SceneUpdate :=
  let recentTranscript := transcript.drop (transcript.length - 10)
  { sceneContext := config.prompt,
    transcript := formatTranscript recentTranscript config,
    lastEvent := transcript.getLast?,
    beat := beat,
    moderatorNote := generateModeratorNote beat (config.maxBeats.getD 50) }

/-- Stable insertion (after all earlier elements with timestamp `≤`),
mirroring the stable JS `sort((a, b) => a.timestamp - b.timestamp)`. -/
def insertByTs (x : NamedResponse) : List NamedResponse → List NamedResponse
  | [] => [x]
  | y :: ys =>
    if y.timestamp ≤ x.timestamp then y :: insertByTs x ys else x :: y :: ys

/-- Stable sort by arrival timestamp. -/
def sortByTs (l : List NamedResponse) : List NamedResponse :=
  l.foldl (fun acc x => insertByTs x acc) []

/-- `collectResponses`: fan out to every agent (`Promise.allSettled`
preserves the agent order), keep the fulfilled results, sort by arrival
timestamp. -/
def collectResponses (agents : List AgentModel) (update : SceneUpdate) :
    List NamedResponse :=
  sortByTs (agents.filterMap (fun agent =>
    (agent.respond update).map
      (fun response => { toCharacterResponse := response, agentName := agent.name })))

/-- Is the parsed action `silent`?  (The `r.parsed.action !== 'silent'`
test of the scheduler's filter.) -/
def isSilentResponse (r : NamedResponse) : Bool :=
  match r.parsed.action with
  | Action.silent => true
  | _ => false

/-- `responseToEntry`: dialog entry for the current beat; `silent` (never
reached through the filter) and `speak` both map to `speak`. -/
def responseToEntry (response : CharacterResponse) (speaker : String)
    (beat : Nat) : DialogEntry :=
  { speaker := speaker,
    action := match response.parsed.action with
      | Action.interrupt => Action.interrupt
      | Action.react => Action.react
      | _ => Action.speak,
    target := response.parsed.target,
    tone := response.parsed.tone,
    content := response.parsed.content,
    nonverbal := response.parsed.nonverbal,
    beat := beat,
    timestamp := response.timestamp }

/-- The transcript entries appended by one beat: collect, filter out
silent, look the agent up by name, convert. -/
def beatEntries (agents : List AgentModel) (config : SceneConfig)
    (transcript : List TranscriptEntry) (beat : Nat) : List TranscriptEntry :=
  let update := createUpdate config transcript beat
  let responses := collectResponses agents update
  let dialogResponses := responses.filter (fun r => !(isSilentResponse r))
  dialogResponses.filterMap (fun response =>
    (agents.find? (fun a => a.name == response.agentName)).map
      (fun agent =>
        TranscriptEntry.dialog
          (responseToEntry response.toCharacterResponse agent.name beat)))

/-- Observable trace of one run: the accumulated transcript entries, the
final beat counter, and the log of gateway invocations `(beat, agent
name)` — one per agent per executed beat. -/
structure RunTrace where
  entries : List TranscriptEntry
  finalBeat : Nat
  invocations : List (Nat × String)
deriving Repr

/-- The `while (beat < maxBeats)` loop, by structural recursion on the
remaining-beat fuel (`fuel = maxBeats - beat` at every call, so `fuel = 0`
is exactly the loop guard failing). -/
def sceneLoop (config : SceneConfig) (agents : List AgentModel)
    (oracle : Oracle) :
    List TranscriptEntry → Nat → Nat → RunTrace
  | transcript, beat, 0 => ⟨transcript, beat, []⟩
  | transcript, beat, fuel + 1 =>
    if oracle (transcript ++ beatEntries agents config transcript beat)
        config beat then
      ⟨transcript ++ beatEntries agents config transcript beat, beat,
       agents.map (fun a => (beat, a.name))⟩
    else
      ⟨(sceneLoop config agents oracle
          (transcript ++ beatEntries agents config transcript beat)
          (beat + 1) fuel).entries,
       (sceneLoop config agents oracle
          (transcript ++ beatEntries agents config transcript beat)
          (beat + 1) fuel).finalBeat,
       agents.map (fun a => (beat, a.name)) ++
         (sceneLoop config agents oracle
            (transcript ++ beatEntries agents config transcript beat)
            (beat + 1) fuel).invocations⟩

/-- The run's internal trace: validation, then the loop from beat 0 with an
empty transcript. -/
def runTrace (config : SceneConfig) (agents : List AgentModel)
    (oracle : Oracle) : RunTrace :=
  if (validateConfig config).valid then
    sceneLoop config agents oracle [] 0 (config.maxBeats.getD 50)
  else
    ⟨[], 0, []⟩

/-- `createMetadata`. -/
def createMetadata (config : SceneConfig) (totalBeats : Nat)
    (completionReason : CompletionReason) (goalAchieved : Bool) :
    SceneMetadata :=
  { name := config.name,
    totalBeats := totalBeats,
    characterCount := config.characters.length,
    goalAchieved := goalAchieved,
    completionReason := completionReason,
    characters := config.characters }

/-- `runSceneWithAgents`: validate, run the loop, derive the completion
reason (`beat >= maxBeats` means the limit was hit before the oracle
signalled) and package the `SceneResult`. -/
def runSceneWithAgents (config : SceneConfig) (agents : List AgentModel)
    (oracle : Oracle) : SceneResult :=
  let validation := validateConfig config
  if validation.valid then
    let trace := runTrace config agents oracle
    let maxBeats := config.maxBeats.getD 50
    let completionReason :=
      if trace.finalBeat ≥ maxBeats then CompletionReason.max_beats
      else CompletionReason.goal_achieved
    let goalAchieved := decide (completionReason = CompletionReason.goal_achieved)
    { success := true,
      transcript := formatTranscript trace.entries config,
      metadata := createMetadata config trace.finalBeat completionReason goalAchieved,
      outputPath := "/data/scenes/" ++ config.name ++ "/" }
  else
    { success := false,
      transcript := "",
      metadata := createMetadata config 0 CompletionReason.error false,
      outputPath := "",
      error := some { code := "INVALID_CONFIG",
                      message := validation.error.getD "Invalid configuration",
                      context := some config } }

/-- Transcript state just before beat `b` of a run with the source's stub
oracle (which never breaks the loop), used to address individual beats. -/
def stateAt (config : SceneConfig) (agents : List AgentModel) :
    Nat → List TranscriptEntry
  | 0 => []
  | b + 1 =>
    stateAt config agents b ++
      beatEntries agents config (stateAt config agents b) b

/-- The `SceneUpdate` all agents receive at beat `b` of a stub-oracle run. -/
def updateAt (config : SceneConfig) (agents : List AgentModel) (b : Nat) :
    SceneUpdate :=
  createUpdate config (stateAt config agents b) b

/-! ## Concrete instances used by counterexamples and witnesses -/

/-- A config rejected by validation (empty name). -/
def cfgNoName : SceneConfig :=
  { name := "", prompt := "Alice speaks.", characters := ["alice"],
    maxBeats := some 3 }

/-- A small valid config with a two-beat limit. -/
def cfgTwoBeats : SceneConfig :=
  { name := "w", prompt := "p", characters := ["a"], maxBeats := some 2 }

/-- A valid one-beat config with two participants. -/
def cfgPair : SceneConfig :=
  { name := "scene", prompt := "p", characters := ["alice", "bob"],
    maxBeats := some 1 }

/-- A concrete non-silent response. -/
def respCalm : CharacterResponse :=
  { raw := "[TONE: calm] \"All good.\"",
    parsed := parseResponse "[TONE: calm] \"All good.\"",
    timestamp := 100 }

/-- An agent that always settles with `respCalm`. -/
def aliceAgent : AgentModel :=
  { name := "alice", respond := fun _ => some respCalm }

/-- An agent whose invocation always fails (rejected promise). -/
def bobFailing : AgentModel :=
  { name := "bob", respond := fun _ => none }

/-- A config rejected by validation (no participants). -/
def cfgNoChars : SceneConfig :=
  { name := "x", prompt := "p", characters := [] }

/-- A config with a whitespace-only name. -/
def cfgBlankName : SceneConfig :=
  { name := "  ", prompt := "p", characters := ["alice"] }

/-- A valid config whose only participant identifier is the empty string. -/
def cfgEmptyParticipant : SceneConfig :=
  { name := "n", prompt := "p", characters := [""], maxBeats := some 1 }

/-! ## Parser step lemmas -/

theorem targetStep_action (br : List Char) (r : ParsedResponse) :
    (targetStep br r).action = r.action := by
  unfold targetStep; split <;> rfl

theorem targetStep_tone (br : List Char) (r : ParsedResponse) :
    (targetStep br r).tone = r.tone := by
  unfold targetStep; split <;> rfl

theorem targetStep_warning (br : List Char) (r : ParsedResponse) :
    (targetStep br r).warning = r.warning := by
  unfold targetStep; split <;> rfl

theorem toneStep_action (br : List Char) (r : ParsedResponse) :
    (toneStep br r).action = r.action := by
  unfold toneStep
  split
  · rfl
  · split <;> rfl

theorem toneStep_warning_isSome (br : List Char) (r : ParsedResponse)
    (h : r.warning.isSome = true) : (toneStep br r).warning.isSome = true := by
  unfold toneStep
  split
  · exact h
  · split
    · rfl
    · exact h

theorem nonverbalStep_action (br : List Char) (r : ParsedResponse) :
    (nonverbalStep br r).action = r.action := by
  unfold nonverbalStep; split <;> rfl

theorem nonverbalStep_tone (br : List Char) (r : ParsedResponse) :
    (nonverbalStep br r).tone = r.tone := by
  unfold nonverbalStep; split <;> rfl

theorem nonverbalStep_warning (br : List Char) (r : ParsedResponse) :
    (nonverbalStep br r).warning = r.warning := by
  unfold nonverbalStep; split <;> rfl

theorem contentStep_action (after : List Char) (r : ParsedResponse) :
    (contentStep after r).action = r.action := by
  unfold contentStep; split_ifs <;> rfl

theorem contentStep_tone (after : List Char) (r : ParsedResponse) :
    (contentStep after r).tone = r.tone := by
  unfold contentStep; split_ifs <;> rfl

theorem contentStep_warning_isSome (after : List Char) (r : ParsedResponse)
    (h : r.warning.isSome = true) :
    (contentStep after r).warning.isSome = true := by
  unfold contentStep
  split_ifs with h1 h2 h3
  · exact h
  · rfl
  · exact h
  · exact h

theorem salvageTone_action (raw : String) (r : ParsedResponse) :
    (salvageTone raw r).action = r.action := by
  unfold salvageTone; split <;> rfl

theorem salvageTone_warning (raw : String) (r : ParsedResponse) :
    (salvageTone raw r).warning = r.warning := by
  unfold salvageTone; split <;> rfl

theorem salvageContent_action (raw : String) (r : ParsedResponse) :
    (salvageContent raw r).action = r.action := by
  unfold salvageContent; split <;> rfl

theorem salvageContent_tone (raw : String) (r : ParsedResponse) :
    (salvageContent raw r).tone = r.tone := by
  unfold salvageContent; split <;> rfl

theorem salvageContent_warning (raw : String) (r : ParsedResponse) :
    (salvageContent raw r).warning = r.warning := by
  unfold salvageContent; split <;> rfl

theorem salvageTargetStep_action (raw : String) (r : ParsedResponse) :
    (salvageTargetStep raw r).action = r.action := by
  unfold salvageTargetStep; split <;> rfl

theorem salvageTargetStep_tone (raw : String) (r : ParsedResponse) :
    (salvageTargetStep raw r).tone = r.tone := by
  unfold salvageTargetStep; split <;> rfl

theorem salvageTargetStep_warning (raw : String) (r : ParsedResponse) :
    (salvageTargetStep raw r).warning = r.warning := by
  unfold salvageTargetStep; split <;> rfl

theorem salvageParse_action (raw : String) :
    (salvageParse raw).action = Action.speak := by
  unfold salvageParse
  rw [salvageTargetStep_action, salvageContent_action, salvageTone_action]

theorem salvageParse_warning (raw : String) :
    (salvageParse raw).warning =
      some "Failed to parse format, attempting salvage" := by
  unfold salvageParse
  rw [salvageTargetStep_warning, salvageContent_warning, salvageTone_warning]

theorem salvageParse_tone_ne_empty (raw : String) :
    (salvageParse raw).tone ≠ "" := by
  unfold salvageParse
  rw [salvageTargetStep_tone, salvageContent_tone]
  unfold salvageTone
  cases hf : toneKeywords.find?
      (fun p => containsL p.1.toList (jsLower raw.toList)) with
  | none => simp
  | some p =>
    have hmem := List.mem_of_find?_eq_some hf
    have hvals : ∀ q ∈ toneKeywords, q.2 ≠ "" := by decide
    simpa using hvals p hmem

theorem salvageParse_tone_neutral (raw : String)
    (h : ∀ p ∈ toneKeywords, containsL p.1.toList (jsLower raw.toList) = false) :
    (salvageParse raw).tone = "neutral" := by
  unfold salvageParse
  rw [salvageTargetStep_tone, salvageContent_tone]
  unfold salvageTone
  cases hfind : toneKeywords.find?
      (fun p => containsL p.1.toList (jsLower raw.toList)) with
  | none => rfl
  | some p =>
    exfalso
    have h1 := List.find?_some hfind
    have h2 := List.mem_of_find?_eq_some hfind
    rw [h p h2] at h1
    exact Bool.false_ne_true h1

/-! ## The interrupt regex needs the literal `INTERRUPT after` -/

theorem dropPrefixL_isSome_isPrefixL :
    ∀ (p l : List Char), (dropPrefixL p l).isSome = true → isPrefixL p l = true := by
  intro p
  induction p with
  | nil => intro l _; rfl
  | cons c cs ih =>
    intro l h
    cases l with
    | nil => simp [dropPrefixL] at h
    | cons d ds =>
      unfold dropPrefixL at h
      by_cases hc : c == d
      · rw [if_pos hc] at h
        unfold isPrefixL
        rw [hc, ih ds h]
        rfl
      · rw [if_neg hc] at h
        simp at h

theorem dropPrefixL_append_isSome (xs ys : List Char) :
    ∀ l : List Char, (dropPrefixL (xs ++ ys) l).isSome = true →
      (dropPrefixL xs l).isSome = true := by
  induction xs with
  | nil => intro l _; rfl
  | cons x xs ih =>
    intro l h
    cases l with
    | nil => simp [dropPrefixL] at h
    | cons c cs =>
      rw [List.cons_append] at h
      unfold dropPrefixL at h ⊢
      by_cases hx : x == c
      · rw [if_pos hx] at h ⊢
        exact ih cs h
      · rw [if_neg hx] at h
        simp at h

theorem interruptAtPos_some_isPrefix (l ph : List Char)
    (h : interruptAtPos l = some ph) :
    isPrefixL "INTERRUPT after".toList l = true := by
  apply dropPrefixL_isSome_isPrefixL
  unfold interruptAtPos at h
  cases hd : dropPrefixL "INTERRUPT after ".toList l with
  | none => rw [hd] at h; exact absurd h (by simp)
  | some rest =>
    have hsplit : "INTERRUPT after ".toList =
        "INTERRUPT after".toList ++ [' '] := by decide
    have hfull : (dropPrefixL ("INTERRUPT after".toList ++ [' ']) l).isSome = true := by
      rw [← hsplit, hd]; rfl
    exact dropPrefixL_append_isSome _ _ l hfull

theorem interruptCapture_some_contains :
    ∀ (l ph : List Char), interruptCapture l = some ph →
      containsL "INTERRUPT after".toList l = true := by
  intro l
  induction l with
  | nil =>
    intro ph h
    unfold interruptCapture scanFirst at h
    simp [interruptAtPos, dropPrefixL] at h
  | cons c cs ih =>
    intro ph h
    unfold interruptCapture scanFirst at h
    cases hf : interruptAtPos (c :: cs) with
    | some ph2 =>
      have hp := interruptAtPos_some_isPrefix _ _ hf
      unfold containsL
      rw [hp]
      rfl
    | none =>
      rw [hf] at h
      have := ih ph h
      unfold containsL
      rw [this]
      simp

/-! ## parseResponse unfolding helpers -/

theorem parseResponse_of_strict_ok {s : String} {r : ParsedResponse}
    (hne : s ≠ "") (h : strictParse s = Except.ok r) : parseResponse s = r := by
  unfold parseResponse
  rw [if_neg hne, h]

theorem parseResponse_of_strict_err {s : String} {e : String}
    (hne : s ≠ "") (h : strictParse s = Except.error e) :
    parseResponse s = salvageParse s := by
  unfold parseResponse
  rw [if_neg hne, h]

theorem ne_empty_of_leadingBracket {s : String} {br after : List Char}
    (h : leadingBracket s.toList = some (br, after)) : s ≠ "" := by
  intro hs
  subst hs
  simp [leadingBracket] at h

/-! ## Ordering and membership lemmas for the timestamp sort -/

/-- The ordering relation of claim C4 on transcript entries. -/
def entryBeat : TranscriptEntry → Nat
  | TranscriptEntry.dialog e => e.beat
  | TranscriptEntry.event _ b _ => b
  | TranscriptEntry.system _ b _ => b

/-- Arrival timestamp of a transcript entry. -/
def entryTs : TranscriptEntry → Nat
  | TranscriptEntry.dialog e => e.timestamp
  | TranscriptEntry.event _ _ ts => ts
  | TranscriptEntry.system _ _ ts => ts

/-- `e1` may precede `e2`: beats are nondecreasing, and within a beat
timestamps are nondecreasing. -/
def entryOrdered (e1 e2 : TranscriptEntry) : Prop :=
  entryBeat e1 ≤ entryBeat e2 ∧
    (entryBeat e1 = entryBeat e2 → entryTs e1 ≤ entryTs e2)

/-- Timestamp order on settled responses. -/
def tsLe (a b : NamedResponse) : Prop :=
  a.timestamp ≤ b.timestamp

theorem mem_insertByTs {x y : NamedResponse} {l : List NamedResponse} :
    x ∈ insertByTs y l ↔ x = y ∨ x ∈ l := by
  induction l with
  | nil => simp [insertByTs]
  | cons z zs ih =>
    by_cases h : z.timestamp ≤ y.timestamp
    · simp only [insertByTs, if_pos h, List.mem_cons, ih]
      tauto
    · simp only [insertByTs, if_neg h, List.mem_cons]

theorem insertByTs_pairwise {x : NamedResponse} {l : List NamedResponse}
    (hl : l.Pairwise tsLe) : (insertByTs x l).Pairwise tsLe := by
  induction l with
  | nil => simp [insertByTs]
  | cons z zs ih =>
    rcases List.pairwise_cons.mp hl with ⟨hz, hzs⟩
    by_cases h : z.timestamp ≤ x.timestamp
    · simp only [insertByTs, if_pos h]
      refine List.pairwise_cons.mpr ⟨?_, ih hzs⟩
      intro a ha
      rcases mem_insertByTs.mp ha with rfl | ha'
      · exact h
      · exact hz a ha'
    · simp only [insertByTs, if_neg h]
      refine List.pairwise_cons.mpr ⟨?_, hl⟩
      intro a ha
      rcases List.mem_cons.mp ha with rfl | ha'
      · exact Nat.le_of_not_le h
      · exact Nat.le_trans (Nat.le_of_not_le h) (hz a ha')

theorem sortByTs_pairwise (l : List NamedResponse) :
    (sortByTs l).Pairwise tsLe := by
  have key : ∀ (l : List NamedResponse) (acc : List NamedResponse),
      acc.Pairwise tsLe →
      (l.foldl (fun acc x => insertByTs x acc) acc).Pairwise tsLe := by
    intro l
    induction l with
    | nil => intro acc h; simpa using h
    | cons x xs ih =>
      intro acc h
      exact ih (insertByTs x acc) (insertByTs_pairwise h)
  exact key l [] (by simp)

theorem mem_sortByTs {x : NamedResponse} {l : List NamedResponse} :
    x ∈ l → x ∈ sortByTs l := by
  have key : ∀ (l acc : List NamedResponse),
      x ∈ acc ∨ x ∈ l → x ∈ l.foldl (fun acc y => insertByTs y acc) acc := by
    intro l
    induction l with
    | nil => intro acc h; simpa using h.resolve_right (by simp)
    | cons y ys ih =>
      intro acc h
      refine ih (insertByTs y acc) ?_
      rcases h with h | h
      · exact Or.inl (mem_insertByTs.mpr (Or.inr h))
      · rcases List.mem_cons.mp h with rfl | h'
        · exact Or.inl (mem_insertByTs.mpr (Or.inl rfl))
        · exact Or.inr h'
  intro h
  exact key l [] (Or.inr h)

/-! ## Per-beat lemmas -/

theorem responseToEntry_beat (response : CharacterResponse) (speaker : String)
    (beat : Nat) : (responseToEntry response speaker beat).beat = beat := rfl

theorem responseToEntry_timestamp (response : CharacterResponse)
    (speaker : String) (beat : Nat) :
    (responseToEntry response speaker beat).timestamp = response.timestamp := rfl

theorem responseToEntry_action_ne_silent (response : CharacterResponse)
    (speaker : String) (beat : Nat) :
    (responseToEntry response speaker beat).action ≠ Action.silent := by
  unfold responseToEntry
  cases response.parsed.action <;> simp

/-- Every entry a beat appends carries that beat index and the originating
response's timestamp, and originates from a non-silent settled response. -/
theorem beatEntries_sound {agents : List AgentModel} {config : SceneConfig}
    {transcript : List TranscriptEntry} {beat : Nat} {e : TranscriptEntry}
    (he : e ∈ beatEntries agents config transcript beat) :
    ∃ r : NamedResponse, isSilentResponse r = false ∧
      e = TranscriptEntry.dialog
            (responseToEntry r.toCharacterResponse r.agentName beat) := by
  unfold beatEntries at he
  rcases List.mem_filterMap.mp he with ⟨r, hr, hmap⟩
  rcases Option.map_eq_some'.mp hmap with ⟨agent, hfind, rfl⟩
  have hpred := List.find?_some hfind
  have hname : agent.name = r.agentName := by
    simpa using hpred
  have hsil : isSilentResponse r = false := by
    have := (List.mem_filter.mp hr).2
    simpa using this
  exact ⟨r, hsil, by rw [hname]⟩

theorem beatEntries_beat {agents : List AgentModel} {config : SceneConfig}
    {transcript : List TranscriptEntry} {beat : Nat} {e : TranscriptEntry}
    (he : e ∈ beatEntries agents config transcript beat) :
    entryBeat e = beat := by
  rcases beatEntries_sound he with ⟨r, -, rfl⟩
  rfl

/-- Within one beat the appended entries are ordered by arrival
timestamp. -/
theorem beatEntries_pairwise (agents : List AgentModel) (config : SceneConfig)
    (transcript : List TranscriptEntry) (beat : Nat) :
    (beatEntries agents config transcript beat).Pairwise entryOrdered := by
  unfold beatEntries
  apply List.Pairwise.filterMap
    (S := entryOrdered)
    (R := tsLe)
  · intro a a' hts b hb b' hb'
    rcases Option.map_eq_some'.mp hb with ⟨ag, -, rfl⟩
    rcases Option.map_eq_some'.mp hb' with ⟨ag', -, rfl⟩
    constructor
    · exact Nat.le_refl _
    · intro _
      exact hts
  · exact List.Pairwise.filter _ (sortByTs_pairwise _)

/-- Completeness of a beat: a participant whose invocation settles with a
non-silent response contributes exactly its converted entry. -/
theorem beatEntries_complete {agents : List AgentModel} {config : SceneConfig}
    {transcript : List TranscriptEntry} {beat : Nat} {a : AgentModel}
    {resp : CharacterResponse}
    (ha : a ∈ agents)
    (hresp : a.respond (createUpdate config transcript beat) = some resp)
    (hns : resp.parsed.action ≠ Action.silent) :
    TranscriptEntry.dialog (responseToEntry resp a.name beat) ∈
      beatEntries agents config transcript beat := by
  unfold beatEntries
  set nr : NamedResponse := { toCharacterResponse := resp, agentName := a.name } with hnr
  have hmem : nr ∈ collectResponses agents (createUpdate config transcript beat) := by
    unfold collectResponses
    apply mem_sortByTs
    exact List.mem_filterMap.mpr ⟨a, ha, by rw [hresp]; rfl⟩
  have hsil : isSilentResponse nr = false := by
    unfold isSilentResponse
    cases hact : resp.parsed.action <;> simp_all [hnr]
  have hfil : nr ∈ (collectResponses agents
      (createUpdate config transcript beat)).filter
        (fun r => !(isSilentResponse r)) :=
    List.mem_filter.mpr ⟨hmem, by simp [hsil]⟩
  apply List.mem_filterMap.mpr
  refine ⟨nr, hfil, ?_⟩
  have hfound : (agents.find? (fun x => x.name == nr.agentName)).isSome := by
    apply List.find?_isSome.mpr
    exact ⟨a, ha, by simp [hnr]⟩
  rcases Option.isSome_iff_exists.mp hfound with ⟨ag, hag⟩
  have hagname : ag.name = a.name := by
    have := List.find?_some hag
    simpa [hnr] using this
  rw [hag]
  simp [hnr, hagname]

/-! ## Loop invariants -/

/-- Beat indices already in the transcript stay below the running beat
counter, so appending a sorted batch keeps the whole transcript ordered. -/
theorem sceneLoop_pairwise (config : SceneConfig) (agents : List AgentModel)
    (oracle : Oracle) :
    ∀ (fuel : Nat) (transcript : List TranscriptEntry) (beat : Nat),
      transcript.Pairwise entryOrdered →
      (∀ e ∈ transcript, entryBeat e < beat) →
      (sceneLoop config agents oracle transcript beat fuel).entries.Pairwise
        entryOrdered := by
  intro fuel
  induction fuel with
  | zero => intro transcript beat hp _; simpa [sceneLoop] using hp
  | succ fuel ih =>
    intro transcript beat hp hlt
    have hnew := beatEntries_pairwise agents config transcript beat
    have hp1 : (transcript ++ beatEntries agents config transcript beat).Pairwise
        entryOrdered := by
      apply List.pairwise_append.mpr
      refine ⟨hp, hnew, ?_⟩
      intro a ha b hb
      have hbb := beatEntries_beat hb
      have haa := hlt a ha
      constructor
      · omega
      · intro heq; omega
    have hlt1 : ∀ e ∈ transcript ++ beatEntries agents config transcript beat,
        entryBeat e < beat + 1 := by
      intro e he
      rcases List.mem_append.mp he with h | h
      · exact Nat.lt_succ_of_lt (hlt e h)
      · rw [beatEntries_beat h]; omega
    unfold sceneLoop
    by_cases horacle :
        oracle (transcript ++ beatEntries agents config transcript beat) config beat
    · simpa [horacle] using hp1
    · simpa [horacle] using ih _ (beat + 1) hp1 hlt1

/-- With an oracle that never signals completion, the loop consumes all its
fuel: the final beat counter is the starting counter plus the fuel. -/
theorem sceneLoop_finalBeat (config : SceneConfig) (agents : List AgentModel)
    (oracle : Oracle) (hfalse : ∀ t c b, oracle t c b = false) :
    ∀ (fuel : Nat) (transcript : List TranscriptEntry) (beat : Nat),
      (sceneLoop config agents oracle transcript beat fuel).finalBeat =
        beat + fuel := by
  intro fuel
  induction fuel with
  | zero => intro transcript beat; rfl
  | succ fuel ih =>
    intro transcript beat
    unfold sceneLoop
    rw [hfalse]
    simp only [if_false, Bool.false_eq_true]
    rw [ih]
    omega

/-- Every transcript entry of a run was either present before the loop or
produced by some beat from a non-silent settled response. -/
theorem sceneLoop_entries_sound (config : SceneConfig)
    (agents : List AgentModel) (oracle : Oracle) :
    ∀ (fuel : Nat) (transcript : List TranscriptEntry) (beat : Nat)
      (e : TranscriptEntry),
      e ∈ (sceneLoop config agents oracle transcript beat fuel).entries →
      e ∈ transcript ∨
        ∃ (b : Nat) (r : NamedResponse), isSilentResponse r = false ∧
          e = TranscriptEntry.dialog
                (responseToEntry r.toCharacterResponse r.agentName b) := by
  intro fuel
  induction fuel with
  | zero =>
    intro transcript beat e he
    exact Or.inl (by simpa [sceneLoop] using he)
  | succ fuel ih =>
    intro transcript beat e he
    unfold sceneLoop at he
    cases horacle :
        oracle (transcript ++ beatEntries agents config transcript beat) config beat
    case true =>
      simp only [horacle, if_true] at he
      rcases List.mem_append.mp he with h | h
      · exact Or.inl h
      · rcases beatEntries_sound h with ⟨r, hr, rfl⟩
        exact Or.inr ⟨beat, r, hr, rfl⟩
    case false =>
      simp only [horacle, Bool.false_eq_true, if_false] at he
      rcases ih _ (beat + 1) e he with h | h
      · rcases List.mem_append.mp h with h' | h'
        · exact Or.inl h'
        · rcases beatEntries_sound h' with ⟨r, hr, rfl⟩
          exact Or.inr ⟨beat, r, hr, rfl⟩
      · exact Or.inr h

/-- An executed beat invokes every agent: with fuel available and a
nonempty agent list the invocation log is nonempty. -/
theorem sceneLoop_invocations_ne_nil (config : SceneConfig)
    (agents : List AgentModel) (oracle : Oracle) (fuel : Nat)
    (transcript : List TranscriptEntry) (beat : Nat)
    (hagents : agents ≠ []) :
    (sceneLoop config agents oracle transcript beat (fuel + 1)).invocations ≠
      [] := by
  have hmap : agents.map (fun a => (beat, a.name)) ≠ [] := by
    simpa using hagents
  unfold sceneLoop
  cases horacle :
      oracle (transcript ++ beatEntries agents config transcript beat) config beat
  case true => simpa [horacle] using hmap
  case false =>
    simp only [horacle, Bool.false_eq_true, if_false]
    intro hcontra
    exact hmap (List.append_eq_nil.mp hcontra).1

/-! ## Characterization of stub-oracle runs via `stateAt` -/

theorem sceneLoop_stub_entries (config : SceneConfig)
    (agents : List AgentModel) :
    ∀ (fuel b : Nat),
      (sceneLoop config agents shouldComplete
        (stateAt config agents b) b fuel).entries =
        stateAt config agents (b + fuel) := by
  intro fuel
  induction fuel with
  | zero => intro b; rfl
  | succ fuel ih =>
    intro b
    unfold sceneLoop
    simp only [shouldComplete, Bool.false_eq_true, if_false]
    have hstep : stateAt config agents b ++
        beatEntries agents config (stateAt config agents b) b =
        stateAt config agents (b + 1) := rfl
    rw [hstep, ih (b + 1)]
    congr 1
    omega

theorem runTrace_stub_entries (config : SceneConfig)
    (agents : List AgentModel)
    (hvalid : (validateConfig config).valid = true) :
    (runTrace config agents shouldComplete).entries =
      stateAt config agents (config.maxBeats.getD 50) := by
  unfold runTrace
  simp only [hvalid, if_true]
  have h0 : stateAt config agents 0 = [] := rfl
  rw [← h0]
  rw [sceneLoop_stub_entries]
  congr 1
  omega

theorem stateAt_mem_mono (config : SceneConfig) (agents : List AgentModel)
    {e : TranscriptEntry} {b k : Nat} (hbk : b ≤ k)
    (he : e ∈ stateAt config agents b) : e ∈ stateAt config agents k := by
  induction k with
  | zero =>
    have : b = 0 := Nat.le_zero.mp hbk
    subst this
    exact he
  | succ k ih =>
    rcases Nat.lt_or_ge b (k + 1) with h | h
    · have hb : b ≤ k := Nat.lt_succ_iff.mp h
      have := ih hb
      show e ∈ stateAt config agents k ++ _
      exact List.mem_append_left _ this
    · have : b = k + 1 := Nat.le_antisymm hbk h
      subst this
      exact he

/-! ## Additional parser lemmas for the tone claim -/

theorem actionStep_ok_tone {br : List Char} {r r' : ParsedResponse}
    (h : actionStep br r = Except.ok r') : r'.tone = r.tone := by
  unfold actionStep at h
  split at h
  · split at h
    · cases h; rfl
    · split at h
      · exact Except.noConfusion h
      · cases h; rfl
  · split at h
    · cases h; rfl
    · split at h
      · cases h; rfl
      · cases h; rfl

theorem toneStep_warning_isSome_of_set {br : List Char} {r : ParsedResponse}
    (hnone : toneCapture br = none) (hact : r.action ≠ Action.silent) :
    (toneStep br r).warning.isSome = true := by
  unfold toneStep
  rw [hnone]
  show (if r.action ≠ Action.silent then _ else r).warning.isSome = true
  rw [if_pos hact]
  rfl

/-- Equation for `actionStep` in the `INTERRUPT`-without-`after` case. -/
theorem actionStep_interrupt_nophrase {br : List Char} {r : ParsedResponse}
    (hI : containsL "INTERRUPT".toList br = true)
    (hcap : interruptCapture br = none)
    (hno : containsL "INTERRUPT after".toList br = false) :
    actionStep br r =
      Except.ok { r with action := Action.interrupt,
                         warning := some "INTERRUPT action missing \"after\" phrase" } := by
  unfold actionStep
  rw [if_pos hI, hcap]
  exact if_neg (fun h => Bool.false_ne_true (hno ▸ h))

/-- Equation for `actionStep` in the malformed-`after`-phrase case: it
throws. -/
theorem actionStep_interrupt_throw {br : List Char} {r : ParsedResponse}
    (hI : containsL "INTERRUPT".toList br = true)
    (hcap : interruptCapture br = none)
    (hyes : containsL "INTERRUPT after".toList br = true) :
    actionStep br r = Except.error "Interrupt phrase not properly formatted" := by
  unfold actionStep
  rw [if_pos hI, hcap]
  exact if_pos hyes

/-! ## Unfolding equations for the run -/

theorem runTrace_invalid {config : SceneConfig} {agents : List AgentModel}
    {oracle : Oracle} (hv : (validateConfig config).valid = false) :
    runTrace config agents oracle = ⟨[], 0, []⟩ := by
  unfold runTrace
  simp only [hv, Bool.false_eq_true, if_false]

theorem runTrace_valid {config : SceneConfig} {agents : List AgentModel}
    {oracle : Oracle} (hv : (validateConfig config).valid = true) :
    runTrace config agents oracle =
      sceneLoop config agents oracle [] 0 (config.maxBeats.getD 50) := by
  unfold runTrace
  simp only [hv, if_true]

theorem runSceneWithAgents_invalid {config : SceneConfig}
    {agents : List AgentModel} {oracle : Oracle}
    (hv : (validateConfig config).valid = false) :
    runSceneWithAgents config agents oracle =
      { success := false, transcript := "",
        metadata := createMetadata config 0 CompletionReason.error false,
        outputPath := "",
        error := some { code := "INVALID_CONFIG",
                        message := (validateConfig config).error.getD
                          "Invalid configuration",
                        context := some config } } := by
  unfold runSceneWithAgents
  simp only [hv, Bool.false_eq_true, if_false]

theorem runSceneWithAgents_valid {config : SceneConfig}
    {agents : List AgentModel} {oracle : Oracle}
    (hv : (validateConfig config).valid = true) :
    runSceneWithAgents config agents oracle =
      { success := true,
        transcript := formatTranscript (runTrace config agents oracle).entries
          config,
        metadata := createMetadata config
          (runTrace config agents oracle).finalBeat
          (if (runTrace config agents oracle).finalBeat ≥
              config.maxBeats.getD 50
           then CompletionReason.max_beats else CompletionReason.goal_achieved)
          (decide
            ((if (runTrace config agents oracle).finalBeat ≥
                 config.maxBeats.getD 50
              then CompletionReason.max_beats
              else CompletionReason.goal_achieved) =
             CompletionReason.goal_achieved)),
        outputPath := "/data/scenes/" ++ config.name ++ "/" } := by
  unfold runSceneWithAgents
  simp only [hv, if_true]

/-! ## Claims -/

/-- C1 (parser totality): under the exception-transparent semantics
`parseResponseE`, every input string — empty or arbitrarily malformed —
produces `Except.ok` of the (total) `parseResponse` value, a fully
populated `ParsedResponse`: the only internal throw site (`strictParse`)
is caught and replaced by the salvage tier. -/
theorem parser_totality (raw : String) :
    parseResponseE raw = Except.ok (parseResponse raw) := by
  unfold parseResponseE parseResponse
  by_cases hr : raw = ""
  · rw [if_pos hr, if_pos hr]
  · rw [if_neg hr, if_neg hr]
    cases h : strictParse raw <;> rfl

/-- C8 counterexample: a leading bracket containing `INTERRUPT` with the
word `after` present but the phrase not properly quoted does NOT yield an
interrupt event — the strict tier throws and the salvage tier returns a
speak event, refuting the claim at this input. -/
theorem interrupt_degradation_counterexample :
    (parseResponse "[INTERRUPT after bad, TONE: angry] \"Stop!\"").action ≠
      Action.interrupt ∧
    (parseResponse "[INTERRUPT after bad, TONE: angry] \"Stop!\"").action =
      Action.speak := by
  constructor
  · decide
  · decide

/-- C8 amended: when the bracket body contains `INTERRUPT` but not the
substring `INTERRUPT after`, the parse succeeds with action `interrupt`
and some warning attached; when it contains `INTERRUPT after` but the
quoted-phrase pattern does not match, the strict tier throws and the
salvage tier yields action `speak` with the salvage warning. -/
theorem interrupt_degradation (s : String) (br after : List Char)
    (hb : leadingBracket s.toList = some (br, after))
    (hI : containsL "INTERRUPT".toList br = true) :
    (containsL "INTERRUPT after".toList br = false →
       (parseResponse s).action = Action.interrupt ∧
       (parseResponse s).warning.isSome = true) ∧
    (interruptCapture br = none →
     containsL "INTERRUPT after".toList br = true →
       (parseResponse s).action = Action.speak ∧
       (parseResponse s).warning =
         some "Failed to parse format, attempting salvage") := by
  have hne : s ≠ "" := ne_empty_of_leadingBracket hb
  constructor
  · intro hnoafter
    have hcap : interruptCapture br = none := by
      cases hc : interruptCapture br with
      | none => rfl
      | some ph =>
        rw [interruptCapture_some_contains br ph hc] at hnoafter
        exact absurd hnoafter (by simp)
    have hact : actionStep br { action := Action.speak, tone := "", content := "" } =
        Except.ok { action := Action.interrupt, tone := "", content := "",
                    warning := some "INTERRUPT action missing \"after\" phrase" } :=
      actionStep_interrupt_nophrase hI hcap hnoafter
    have hok : strictParse s =
        Except.ok (contentStep after (nonverbalStep br (toneStep br (targetStep br
          { action := Action.interrupt, tone := "", content := "",
            warning := some "INTERRUPT action missing \"after\" phrase" })))) := by
      unfold strictParse
      rw [hb]
      show Except.map
        (fun r => contentStep after (nonverbalStep br (toneStep br (targetStep br r))))
        (actionStep br { action := Action.speak, tone := "", content := "" }) = _
      rw [hact]
      rfl
    rw [parseResponse_of_strict_ok hne hok]
    constructor
    · rw [contentStep_action, nonverbalStep_action, toneStep_action,
        targetStep_action]
    · apply contentStep_warning_isSome
      rw [nonverbalStep_warning]
      apply toneStep_warning_isSome
      rw [targetStep_warning]
      rfl
  · intro hcap hafter
    have herr : strictParse s =
        Except.error "Interrupt phrase not properly formatted" := by
      unfold strictParse
      rw [hb]
      show Except.map
        (fun r => contentStep after (nonverbalStep br (toneStep br (targetStep br r))))
        (actionStep br { action := Action.speak, tone := "", content := "" }) = _
      rw [actionStep_interrupt_throw hI hcap hafter]
      rfl
    rw [parseResponse_of_strict_err hne herr]
    exact ⟨salvageParse_action s, salvageParse_warning s⟩

/-- C8 witness: `[INTERRUPT, TONE: angry] "Stop!"` (no `after` phrase at
all) parses to an interrupt event with a warning. -/
theorem interrupt_degradation_witness :
    (parseResponse "[INTERRUPT, TONE: angry] \"Stop!\"").action =
      Action.interrupt ∧
    (parseResponse "[INTERRUPT, TONE: angry] \"Stop!\"").warning.isSome =
      true := by
  have h := interrupt_degradation "[INTERRUPT, TONE: angry] \"Stop!\""
      "INTERRUPT, TONE: angry".toList "\"Stop!\"".toList
      (by decide) (by decide)
  exact h.1 (by decide)

/-- C9 counterexample: `[SILENT]` yields `tone = ""` (the strict tier only
defaults the tone to `"neutral"` when the action is not silent), refuting
"the tone field is a non-empty string" and "defaulted to neutral". -/
theorem tone_populated_counterexample :
    (parseResponse "[SILENT]").tone = "" ∧
    (parseResponse "[SILENT]").warning = none := by
  constructor
  · decide
  · decide

/-- C9 amended: the empty input gets tone `"neutral"`; every salvage parse
has a non-empty tone, `"neutral"` when no tone keyword occurs; a strict
parse whose `TONE:` pattern does not match gets `"neutral"` plus a warning
when the action is not silent but keeps the empty tone when the action is
silent; a matched `TONE:` pattern yields its trimmed value (which can be
empty). -/
theorem tone_characterization (s : String) :
    (s = "" → (parseResponse s).tone = "neutral") ∧
    (s ≠ "" → ∀ msg, strictParse s = Except.error msg →
       (parseResponse s).tone ≠ "" ∧
       ((∀ p ∈ toneKeywords, containsL p.1.toList (jsLower s.toList) = false) →
          (parseResponse s).tone = "neutral")) ∧
    (∀ br after, leadingBracket s.toList = some (br, after) →
     ∀ r, strictParse s = Except.ok r →
       parseResponse s = r ∧
       (toneCapture br = none →
          (r.action ≠ Action.silent →
             r.tone = "neutral" ∧ r.warning.isSome = true) ∧
          (r.action = Action.silent → r.tone = "")) ∧
       (∀ t, toneCapture br = some t → r.tone = jsTrimS ⟨t⟩)) := by
  refine ⟨?_, ?_, ?_⟩
  · intro hs
    subst hs
    rfl
  · intro hne msg herr
    rw [parseResponse_of_strict_err hne herr]
    exact ⟨salvageParse_tone_ne_empty s, fun h => salvageParse_tone_neutral s h⟩
  · intro br after hb r hok
    have hne : s ≠ "" := ne_empty_of_leadingBracket hb
    refine ⟨parseResponse_of_strict_ok hne hok, ?_⟩
    unfold strictParse at hok
    rw [hb] at hok
    replace hok : Except.map
        (fun r => contentStep after (nonverbalStep br (toneStep br (targetStep br r))))
        (actionStep br { action := Action.speak, tone := "", content := "" }) =
        Except.ok r := hok
    cases hact : actionStep br { action := Action.speak, tone := "", content := "" } with
    | error e =>
      rw [hact] at hok
      exact Except.noConfusion hok
    | ok r1 =>
      rw [hact] at hok
      have hr : r = contentStep after (nonverbalStep br (toneStep br (targetStep br r1))) := by
        have h1 : (Except.ok (contentStep after (nonverbalStep br
            (toneStep br (targetStep br r1)))) : Except String ParsedResponse) =
            Except.ok r := hok
        exact (Except.ok.inj h1).symm
      subst hr
      have htone1 : r1.tone = "" := actionStep_ok_tone hact
      constructor
      · intro hnone
        constructor
        · intro hactne
          rw [contentStep_action, nonverbalStep_action, toneStep_action,
            targetStep_action] at hactne
          constructor
          · rw [contentStep_tone, nonverbalStep_tone]
            unfold toneStep
            rw [hnone]
            simp only [targetStep_action]
            rw [if_pos hactne]
          · apply contentStep_warning_isSome
            rw [nonverbalStep_warning]
            exact toneStep_warning_isSome_of_set hnone
              (by rw [targetStep_action]; exact hactne)
        · intro hacteq
          rw [contentStep_action, nonverbalStep_action, toneStep_action,
            targetStep_action] at hacteq
          rw [contentStep_tone, nonverbalStep_tone]
          unfold toneStep
          rw [hnone]
          simp only [targetStep_action]
          rw [if_neg (by simp [hacteq])]
          rw [targetStep_tone]
          exact htone1
      · intro t ht
        rw [contentStep_tone, nonverbalStep_tone]
        unfold toneStep
        rw [ht]

/-- C9 witness: `[TO: Bob] "Hello"` (speak, no TONE field) parses with
tone `"neutral"` and a warning present. -/
theorem tone_characterization_witness :
    (parseResponse "[TO: Bob] \"Hello\"").tone = "neutral" ∧
    (parseResponse "[TO: Bob] \"Hello\"").warning.isSome = true := by
  have h := (tone_characterization "[TO: Bob] \"Hello\"").2.2
      "TO: Bob".toList "\"Hello\"".toList (by decide)
      (parseResponse "[TO: Bob] \"Hello\"") (by rfl)
  have h2 := (h.2.1 (by decide)).1 (by decide)
  exact h2

/-- C2 counterexample: the claim quantifies over every configuration, but a
configuration rejected by validation (empty name) returns `success = false`
and `completionReason = error`, not `max_beats`, even with the stub oracle
that never signals completion. -/
theorem max_beats_claim_counterexample :
    ¬ ((runSceneWithAgents cfgNoName [] shouldComplete).success = true ∧
       (runSceneWithAgents cfgNoName [] shouldComplete).metadata.completionReason =
         CompletionReason.max_beats ∧
       (runSceneWithAgents cfgNoName [] shouldComplete).metadata.totalBeats ≤ 3 ∧
       (runSceneWithAgents cfgNoName [] shouldComplete).metadata.goalAchieved =
         false) := by
  intro h
  exact absurd h.1 (by decide)

/-- C2 amended: for every configuration that passes validation, with
`maxBeats = k` and any oracle that never signals completion, the run
terminates with `success = true`, `completionReason = max_beats`,
`totalBeats ≤ k` (in fact `= k`) and `goalAchieved = false`. -/
theorem max_beats_termination (config : SceneConfig) (agents : List AgentModel)
    (oracle : Oracle) (k : Nat)
    (hvalid : (validateConfig config).valid = true)
    (hmax : config.maxBeats = some k)
    (hfalse : ∀ t c b, oracle t c b = false) :
    (runSceneWithAgents config agents oracle).success = true ∧
    (runSceneWithAgents config agents oracle).metadata.completionReason =
      CompletionReason.max_beats ∧
    (runSceneWithAgents config agents oracle).metadata.totalBeats ≤ k ∧
    (runSceneWithAgents config agents oracle).metadata.goalAchieved = false := by
  have hfuel : config.maxBeats.getD 50 = k := by rw [hmax]; rfl
  have hfb : (runTrace config agents oracle).finalBeat = k := by
    rw [runTrace_valid hvalid, hfuel,
      sceneLoop_finalBeat config agents oracle hfalse k [] 0]
    omega
  rw [runSceneWithAgents_valid hvalid]
  refine ⟨rfl, ?_, ?_, ?_⟩
  · show (if (runTrace config agents oracle).finalBeat ≥
        config.maxBeats.getD 50
      then CompletionReason.max_beats else CompletionReason.goal_achieved) =
      CompletionReason.max_beats
    rw [hfb, hfuel, if_pos (Nat.le_refl k)]
  · show (runTrace config agents oracle).finalBeat ≤ k
    rw [hfb]
  · show (decide
        ((if (runTrace config agents oracle).finalBeat ≥
             config.maxBeats.getD 50
          then CompletionReason.max_beats
          else CompletionReason.goal_achieved) =
         CompletionReason.goal_achieved)) = false
    rw [hfb, hfuel, if_pos (Nat.le_refl k)]
    rfl

/-- C2 witness: a valid one-participant config with `maxBeats = 2` and the
always-false oracle. -/
theorem max_beats_termination_witness :
    (runSceneWithAgents cfgTwoBeats [] shouldComplete).success = true ∧
    (runSceneWithAgents cfgTwoBeats [] shouldComplete).metadata.completionReason =
      CompletionReason.max_beats ∧
    (runSceneWithAgents cfgTwoBeats [] shouldComplete).metadata.totalBeats ≤ 2 ∧
    (runSceneWithAgents cfgTwoBeats [] shouldComplete).metadata.goalAchieved =
      false :=
  max_beats_termination cfgTwoBeats [] shouldComplete 2 (by decide) rfl
    (fun _ _ _ => rfl)

/-- C3 (silent filtering): every entry of a run's transcript originates
from a settled response whose parsed action is not `silent` (so silent
responses are never appended), and no dialog entry carries the `silent`
action. -/
theorem silent_filtering (config : SceneConfig) (agents : List AgentModel)
    (oracle : Oracle) (e : TranscriptEntry)
    (he : e ∈ (runTrace config agents oracle).entries) :
    (∃ (b : Nat) (r : NamedResponse), isSilentResponse r = false ∧
       e = TranscriptEntry.dialog
             (responseToEntry r.toCharacterResponse r.agentName b)) ∧
    (∀ d : DialogEntry, e = TranscriptEntry.dialog d →
       d.action ≠ Action.silent) := by
  have hsound : ∃ (b : Nat) (r : NamedResponse), isSilentResponse r = false ∧
      e = TranscriptEntry.dialog
            (responseToEntry r.toCharacterResponse r.agentName b) := by
    by_cases hv : (validateConfig config).valid = true
    · rw [runTrace_valid hv] at he
      rcases sceneLoop_entries_sound config agents oracle _ [] 0 e he with h | h
      · simp at h
      · exact h
    · rw [runTrace_invalid (Bool.not_eq_true _ ▸ Bool.of_not_eq_true hv)] at he
      simp at he
  refine ⟨hsound, ?_⟩
  rcases hsound with ⟨b, r, hrs, rfl⟩
  intro d hd
  have hdr : responseToEntry r.toCharacterResponse r.agentName b = d :=
    TranscriptEntry.dialog.inj hd
  rw [← hdr]
  exact responseToEntry_action_ne_silent _ _ _

/-- C3 witness: a concrete one-beat run in which alice speaks; her entry is
in the transcript and its action is not `silent`. -/
theorem silent_filtering_witness :
    (responseToEntry respCalm "alice" 0).action ≠ Action.silent := by
  have h := silent_filtering cfgPair [aliceAgent] shouldComplete
      (TranscriptEntry.dialog (responseToEntry respCalm "alice" 0)) (by decide)
  exact h.2 _ rfl

/-- C4 (transcript order monotonicity): the final transcript of every run
is pairwise ordered — beats nondecreasing, and timestamps nondecreasing
within a beat. -/
theorem beat_order_monotonicity (config : SceneConfig)
    (agents : List AgentModel) (oracle : Oracle) :
    ((runTrace config agents oracle).entries).Pairwise entryOrdered := by
  by_cases hv : (validateConfig config).valid = true
  · rw [runTrace_valid hv]
    exact sceneLoop_pairwise config agents oracle _ [] 0 (by simp) (by simp)
  · rw [runTrace_invalid (Bool.of_not_eq_true hv)]
    simp

/-- C5 (config rejection): an empty name, empty prompt, or empty
participant list yields `success = false` with error code
`INVALID_CONFIG`, an empty transcript, and no beat is executed — no agent
is ever invoked. -/
theorem config_rejection (config : SceneConfig) (agents : List AgentModel)
    (oracle : Oracle)
    (h : config.name = "" ∨ config.prompt = "" ∨ config.characters = []) :
    (runSceneWithAgents config agents oracle).success = false ∧
    ((runSceneWithAgents config agents oracle).error.map ErrorInfo.code) =
      some "INVALID_CONFIG" ∧
    (runSceneWithAgents config agents oracle).transcript = "" ∧
    (runTrace config agents oracle).entries = [] ∧
    (runTrace config agents oracle).invocations = [] := by
  have hv : (validateConfig config).valid = false := by
    unfold validateConfig
    split_ifs with h1 h2 h3
    · rfl
    · rfl
    · rfl
    · exfalso
      rcases h with h | h | h
      · exact h1 (Or.inl h)
      · exact h2 (Or.inl h)
      · exact h3 h
  rw [runSceneWithAgents_invalid hv, runTrace_invalid hv]
  exact ⟨rfl, rfl, rfl, rfl, rfl⟩

/-- C5 witness: the zero-participant configuration. -/
theorem config_rejection_witness :
    (runSceneWithAgents cfgNoChars [] shouldComplete).success = false ∧
    ((runSceneWithAgents cfgNoChars [] shouldComplete).error.map
        ErrorInfo.code) = some "INVALID_CONFIG" ∧
    (runSceneWithAgents cfgNoChars [] shouldComplete).transcript = "" ∧
    (runTrace cfgNoChars [] shouldComplete).entries = [] ∧
    (runTrace cfgNoChars [] shouldComplete).invocations = [] :=
  config_rejection cfgNoChars [] shouldComplete (Or.inr (Or.inr rfl))

/-- C6 evaluation: in a run where bob's invocation fails at beat 0, the
scheduler records nothing — the transcript contains no System Notice, the
metadata carries no error log, the run succeeds, and only alice's entry
appears.  This contradicts the claim (and the repository's own PRD, which
requires a logged diagnostic plus a `[SYSTEM: ... unable to respond]`
transcript message). -/
theorem failed_invocation_not_recorded :
    ((runTrace cfgPair [aliceAgent, bobFailing] shouldComplete).entries.filter
        (fun e => match e with
          | TranscriptEntry.system _ _ _ => true
          | _ => false)) = [] ∧
    (runSceneWithAgents cfgPair [aliceAgent, bobFailing]
        shouldComplete).metadata.errors = none ∧
    (runSceneWithAgents cfgPair [aliceAgent, bobFailing]
        shouldComplete).success = true ∧
    (runTrace cfgPair [aliceAgent, bobFailing] shouldComplete).entries =
      [TranscriptEntry.dialog (responseToEntry respCalm "alice" 0)] := by
  refine ⟨?_, ?_, ?_, ?_⟩ <;> decide

/-- C7 (partial-failure tolerance): in a stub-oracle run of a valid
config, when exactly one participant's invocation fails at a beat the run
still executes, `success` stays `true`, and every other participant's
non-silent settled response contributes its entry to the transcript. -/
theorem partial_failure_tolerance (config : SceneConfig)
    (agents : List AgentModel) (b : Nat) (f : AgentModel)
    (hvalid : (validateConfig config).valid = true)
    (hb : b < config.maxBeats.getD 50)
    (hf : f ∈ agents)
    (hfail : f.respond (updateAt config agents b) = none)
    (hothers : ∀ a ∈ agents, a ≠ f →
       a.respond (updateAt config agents b) ≠ none) :
    (runSceneWithAgents config agents shouldComplete).success = true ∧
    ∀ a ∈ agents, ∀ resp : CharacterResponse,
      a.respond (updateAt config agents b) = some resp →
      resp.parsed.action ≠ Action.silent →
      TranscriptEntry.dialog (responseToEntry resp a.name b) ∈
        (runTrace config agents shouldComplete).entries := by
  constructor
  · rw [runSceneWithAgents_valid hvalid]
  · intro a ha resp hresp hns
    have hmem : TranscriptEntry.dialog (responseToEntry resp a.name b) ∈
        beatEntries agents config (stateAt config agents b) b :=
      beatEntries_complete ha hresp hns
    have hmem1 : TranscriptEntry.dialog (responseToEntry resp a.name b) ∈
        stateAt config agents (b + 1) := by
      show TranscriptEntry.dialog (responseToEntry resp a.name b) ∈
        stateAt config agents b ++
          beatEntries agents config (stateAt config agents b) b
      exact List.mem_append_right _ hmem
    rw [runTrace_stub_entries config agents hvalid]
    exact stateAt_mem_mono config agents (Nat.succ_le_of_lt hb) hmem1

/-- C7 witness: alice and a failing bob, one beat; alice's entry is in the
transcript and the run succeeds. -/
theorem partial_failure_tolerance_witness :
    (runSceneWithAgents cfgPair [aliceAgent, bobFailing]
        shouldComplete).success = true ∧
    TranscriptEntry.dialog (responseToEntry respCalm "alice" 0) ∈
      (runTrace cfgPair [aliceAgent, bobFailing] shouldComplete).entries := by
  have h := partial_failure_tolerance cfgPair [aliceAgent, bobFailing] 0
      bobFailing (by decide) (by decide)
      (List.Mem.tail _ (List.Mem.head _))
      rfl
      (by
        intro a ha hne
        rcases List.mem_cons.mp ha with rfl | ha2
        · intro hc
          exact Option.noConfusion hc
        · rcases List.mem_cons.mp ha2 with rfl | ha3
          · exact absurd rfl hne
          · simp at ha3)
  refine ⟨h.1, ?_⟩
  exact h.2 aliceAgent (List.Mem.head _) respCalm rfl (by decide)

/-- C10 (validation trims name and prompt but not participants): a
whitespace-only name or prompt is rejected exactly like an empty one, with
no invocation, whereas any nonempty participant list — including one whose
entries are empty or whitespace-only strings — passes validation and the
run proceeds. -/
theorem validation_trims_name_and_prompt_only (config : SceneConfig)
    (agents : List AgentModel) (oracle : Oracle) :
    ((jsTrimS config.name = "" ∨ jsTrimS config.prompt = "") →
       (validateConfig config).valid = false ∧
       (runSceneWithAgents config agents oracle).success = false ∧
       ((runSceneWithAgents config agents oracle).error.map ErrorInfo.code) =
         some "INVALID_CONFIG" ∧
       (runTrace config agents oracle).invocations = []) ∧
    (jsTrimS config.name ≠ "" → jsTrimS config.prompt ≠ "" →
     config.characters ≠ [] →
       (validateConfig config).valid = true ∧
       (runSceneWithAgents config agents oracle).success = true ∧
       (agents ≠ [] → 0 < config.maxBeats.getD 50 →
          (runTrace config agents oracle).invocations ≠ [])) := by
  constructor
  · intro h
    have hv : (validateConfig config).valid = false := by
      unfold validateConfig
      split_ifs with h1 h2 h3
      · rfl
      · rfl
      · rfl
      · exfalso
        rcases h with h | h
        · exact h1 (Or.inr h)
        · exact h2 (Or.inr h)
    rw [runSceneWithAgents_invalid hv, runTrace_invalid hv]
    exact ⟨hv, rfl, rfl, rfl⟩
  · intro hn hp hc
    have hv : (validateConfig config).valid = true := by
      unfold validateConfig
      split_ifs with h1 h2
      · exfalso
        rcases h1 with h1 | h1
        · exact hn (by rw [h1]; rfl)
        · exact hn h1
      · exfalso
        rcases h2 with h2 | h2
        · exact hp (by rw [h2]; rfl)
        · exact hp h2
      · rfl
    refine ⟨hv, ?_, ?_⟩
    · rw [runSceneWithAgents_valid hv]
    · intro hag hpos
      rw [runTrace_valid hv]
      obtain ⟨m, hm⟩ :=
        Nat.exists_eq_succ_of_ne_zero (Nat.pos_iff_ne_zero.mp hpos)
      rw [hm]
      exact sceneLoop_invocations_ne_nil config agents oracle m [] 0 hag

/-- C10 witness: a whitespace-only name is rejected; a config whose single
participant identifier is the empty string passes and runs. -/
theorem validation_trims_witness :
    (validateConfig cfgBlankName).valid = false ∧
    (runSceneWithAgents cfgBlankName [] shouldComplete).success = false ∧
    (validateConfig cfgEmptyParticipant).valid = true ∧
    (runSceneWithAgents cfgEmptyParticipant [aliceAgent]
        shouldComplete).success = true ∧
    (runTrace cfgEmptyParticipant [aliceAgent] shouldComplete).invocations ≠
      [] := by
  have h1 := (validation_trims_name_and_prompt_only cfgBlankName []
      shouldComplete).1 (Or.inl (by decide))
  have h2 := (validation_trims_name_and_prompt_only cfgEmptyParticipant
      [aliceAgent] shouldComplete).2 (by decide) (by decide) (by decide)
  exact ⟨h1.1, h1.2.1, h2.1, h2.2.1,
    h2.2.2 (List.cons_ne_nil _ _) (by decide)⟩

end SceneMod
